import Mathlib

/-!
Verification of `fbzmq::detail::SocketImpl` and the typed `Socket` façades
(`src/fbzmq/zmq/Socket.h`).

The variadic multi-part receive/send templates, the thrift-codec helpers, the
role façade classes (`ServerSocketImpl` / `ClientSocketImpl`, and the
`Socket<_, ZMQ_SERVER>` / `Socket<_, ZMQ_CLIENT>` specializations) and the
query methods `isNonBlocking` / `getKeyPair` are defined in the header and are
embedded here directly from that source.

The bodies of the low-level primitives (`recvOne`, `sendOne`, `sendMore`,
`hasMore`, `bind`, `connect`, the move constructor, the dynamic
`recvMultiple`) live in `Socket.cpp`, which is not part of the provided
sources; where a claim needs them they are modelled from the specification
(each such definition carries a `Modelled from the spec:` doc comment).

A socket is a state record; every operation is a function from state to
(result, state).  Incoming traffic is a queue of frames, each carrying the
ZMQ "more" flag that the wire attaches to every non-final frame of a
multi-part message.  Low-level sends consult an outcome oracle so that
transport failures can be injected, and append shipped frames to a log.
Receives record the timeout they were invoked with in a trace, so that
timeout-plumbing claims are observable.
-/

namespace Fbzmq

/-- Modelled from the spec: the tagged error code (`fbzmq::Error`, declared in
`Common.h` which is outside the provided sources).  The spec calls it "a
tagged error code, not a thrown exception"; the header constructs it from an
errno value (`Error(EPROTO)`, `Error(tmp.error())`). -/
structure Error where
  errNum : Nat
deriving DecidableEq, Repr

/-- `EPROTO` errno value (Linux), used by `Socket.h` for protocol violations. -/
def EPROTO : Nat := 71

/-- `ETIMEDOUT` errno value (Linux): a receive deadline elapsed. -/
def ETIMEDOUT : Nat := 110

/-- `EAGAIN` errno value (Linux).  In this model a `recvOne` with no timeout
on an empty queue yields this marker, standing for the indefinite wait the
real code performs (the wait itself is not representable in a pure model). -/
def EAGAIN : Nat := 11

/-- One frame of a multi-part message (`fbzmq::Message`): an owned byte
buffer. -/
structure Message where
  data : List Nat
deriving DecidableEq, Repr

/-- The byte size of a message, which is what a successful send returns. -/
def Message.size (m : Message) : Nat := m.data.length

/-- Modelled from the spec: the curve crypto key pair (`fbzmq::KeyPair`,
declared in `Common.h`, outside the provided sources): a public and a
private key string. -/
structure KeyPair where
  privateKey : String
  publicKey : String
deriving DecidableEq, Repr

/-- `ZMQ_DONTWAIT` flag value from `zmq.h`; `Socket.h` stores it in
`baseFlags_` and `isNonBlocking` tests it. -/
def ZMQ_DONTWAIT : Nat := 1

/-- State of one `SocketImpl` instance, following the member list at the
bottom of the class (`baseFlags_`, `isSendingMore_`, `ptr_`, `keyPair_`,
`serverKeys_`, `waitEvents_`) plus the observable environment the
operations interact with: the incoming frame queue (each frame paired with
its wire-level "more" flag), the `ZMQ_RCVMORE` state `hasMore()` reads, an
outcome oracle for low-level sends, the log of shipped frames, the trace of
timeouts passed to low-level receives, and the endpoint bookkeeping. -/
structure SocketState where
  /-- `ptr_`: raw socket handle; `none` models the null pointer of an
  uninitialized / closed / moved-from socket. -/
  ptr : Option Nat := none
  /-- `baseFlags_`: holds `ZMQ_DONTWAIT` when the socket is non-blocking. -/
  baseFlags : Nat := 0
  /-- `isSendingMore_`: mid multi-frame send flag. -/
  isSendingMore : Bool := false
  /-- the role flag passed to the `SocketImpl` constructor. -/
  isServer : Bool := false
  /-- `keyPair_`: optional crypto identity. -/
  keyPair : Option KeyPair := none
  /-- `serverKeys_`: map of server url to server public key. -/
  serverKeys : List (String × String) := []
  /-- `waitEvents_`: current event-loop interest mask. -/
  waitEvents : Nat := 0
  /-- frames pending on the socket, oldest first, each with its "more" bit. -/
  frames : List (Message × Bool) := []
  /-- the `ZMQ_RCVMORE` socket state: the "more" bit of the last received
  frame; what `hasMore()` reports. -/
  rcvMore : Bool := false
  /-- oracle of outcomes for successive low-level sends: `none` = succeed,
  `some e` = fail with `e`; an exhausted oracle means success. -/
  sendOutcomes : List (Option Error) := []
  /-- log of frames actually shipped, with the "more" flag each was sent
  under. -/
  sentLog : List (Message × Bool) := []
  /-- trace of the timeout argument of every low-level receive performed. -/
  recvTimeouts : List (Option Nat) := []
  /-- urls this socket is bound to. -/
  boundUrls : List String := []
  /-- urls this socket is connected to. -/
  connectedUrls : List String := []
deriving DecidableEq, Repr

namespace SocketImpl

/-- Modelled from the spec: `SocketImpl::recvOne` (body in `Socket.cpp`,
outside the provided sources).  "Attempts a non-blocking receive. On
immediate success, returns the message. ... On timeout with no message,
returns a timeout error."  In the model: pops the next pending frame and
latches its "more" bit into the `ZMQ_RCVMORE` state; on an empty queue with
a timeout it returns `ETIMEDOUT`; on an empty queue with no timeout the
real code waits indefinitely, which the pure model marks with `EAGAIN`.
The timeout argument is appended to the trace. -/
def recvOne (timeout : Option Nat) (s : SocketState) :
    Except Error Message × SocketState :=
  let s0 := { s with recvTimeouts := s.recvTimeouts ++ [timeout] }
  match s0.frames with
  | [] =>
    match timeout with
    | some _ => (.error ⟨ETIMEDOUT⟩, s0)
    | none => (.error ⟨EAGAIN⟩, s0)
  | (m, more) :: rest =>
    (.ok m, { s0 with frames := rest, rcvMore := more })

/-- Modelled from the spec: `SocketImpl::hasMore` (body in `Socket.cpp`,
outside the provided sources): "reports whether the last-received frame was
marked as continuing", i.e. reads the `ZMQ_RCVMORE` socket state. -/
def hasMore (s : SocketState) : Bool := s.rcvMore

/-- Modelled from the spec: the private low-level `SocketImpl::send` (body in
`Socket.cpp`, outside the provided sources).  Consults the outcome oracle:
on success it ships the frame (appending it, with its "more" flag, to the
log) and returns the message's byte size; on an injected failure it returns
that error and ships nothing. -/
def send (m : Message) (moreFlag : Bool) (s : SocketState) :
    Except Error Nat × SocketState :=
  match s.sendOutcomes with
  | some e :: rest => (.error e, { s with sendOutcomes := rest })
  | none :: rest =>
    (.ok m.size,
     { s with sendOutcomes := rest, sentLog := s.sentLog ++ [(m, moreFlag)] })
  | [] => (.ok m.size, { s with sentLog := s.sentLog ++ [(m, moreFlag)] })

/-- Modelled from the spec: `SocketImpl::sendOne` (body in `Socket.cpp`,
outside the provided sources): "ships a final frame (clears the more flag
before the call)". -/
def sendOne (m : Message) (s : SocketState) : Except Error Nat × SocketState :=
  send m false { s with isSendingMore := false }

/-- Modelled from the spec: `SocketImpl::sendMore` (body in `Socket.cpp`,
outside the provided sources): "ships a frame with more set, leaving
isSendingMore_ true". -/
def sendMore (m : Message) (s : SocketState) : Except Error Nat × SocketState :=
  let (r, s1) := send m true s
  (r, { s1 with isSendingMore := true })

/-- Embedding of the variadic `SocketImpl::recvMultipleTimeout` templates
(`Socket.h`, both the single-`Msg` base case and the `First, Rest...`
recursive case), with the static arity `n` standing for the number of
message slots.  The returned list holds the slots filled so far, in order,
so that partial success is observable exactly as it is through the C++
output references.  `n = 0` cannot arise from the C++ templates (they take
at least one slot) and is a vacuous success.

Base case (one slot): `recvOne(timeout)`; on error return it; move the value
into the slot; if `hasMore()` return `Error(EPROTO)`, else success.

Recursive case: `recvOne(timeout)`; on error return it; move the value into
the slot; if not `hasMore()` return `Error(EPROTO)`; else recurse with the
empty timeout ("if the first message arrives, the rest shall have arrived,
so no timeout"). -/
def recvMultipleTimeoutN (timeout : Option Nat) (n : Nat) (s : SocketState) :
    List Message × Except Error Unit × SocketState :=
  match n with
  | 0 => ([], .ok (), s)
  | 1 =>
    match recvOne timeout s with
    | (.error e, s1) => ([], .error e, s1)
    | (.ok m, s1) =>
      if hasMore s1 then ([m], .error ⟨EPROTO⟩, s1)
      else ([m], .ok (), s1)
  | k + 2 =>
    match recvOne timeout s with
    | (.error e, s1) => ([], .error e, s1)
    | (.ok m, s1) =>
      if hasMore s1 then
        let (ms, r, s2) := recvMultipleTimeoutN none (k + 1) s1
        (m :: ms, r, s2)
      else ([m], .error ⟨EPROTO⟩, s1)

/-- Embedding of the variadic static `SocketImpl::recvMultiple` (`Socket.h`):
delegates to `recvMultipleTimeout` with `folly::none`. -/
def recvMultipleN (n : Nat) (s : SocketState) :
    List Message × Except Error Unit × SocketState :=
  recvMultipleTimeoutN none n s

/-- Embedding of the variadic static `SocketImpl::sendMultiple` templates
(`Socket.h`), with the parameter pack as a list.  The empty list cannot
arise from the C++ templates (they take at least one message).

Base case (one message): `sendMore` if the `hasMore` template flag is set,
else `sendOne`.

Recursive case: `sendMore` the head; on error return it (the remaining
frames are never sent); recurse on the rest; on error return it; on success
return the sum of the two byte counts. -/
def sendMultipleN (hasMoreFlag : Bool) (msgs : List Message) (s : SocketState) :
    Except Error Nat × SocketState :=
  match msgs with
  | [] => (.ok 0, s)
  | [m] => if hasMoreFlag then sendMore m s else sendOne m s
  | m :: m2 :: rest =>
    match sendMore m s with
    | (.error e, s1) => (.error e, s1)
    | (.ok k, s1) =>
      match sendMultipleN hasMoreFlag (m2 :: rest) s1 with
      | (.error e, s2) => (.error e, s2)
      | (.ok k2, s2) => (.ok (k + k2), s2)

/-- Embedding of `SocketImpl::sendMultipleMore` (`Socket.h`): delegates to
`sendMultiple<true, Msgs...>`. -/
def sendMultipleMoreN (msgs : List Message) (s : SocketState) :
    Except Error Nat × SocketState :=
  sendMultipleN true msgs s

/-- Modelled from the spec: the dynamic `SocketImpl::recvMultiple` (body in
`Socket.cpp`, outside the provided sources): "receives the first frame
respecting the timeout; if it fails, returns that error immediately;
otherwise keeps receiving following frames (no timeout) until the socket
signals no more data, accumulating into a sequence".  The loop is fueled
purely as a termination device; each iteration consumes one pending frame,
so fuel `s.frames.length` at entry is never exhausted. -/
def recvMultipleDynAux (fuel : Nat) (acc : List Message) (s : SocketState) :
    Except Error (List Message) × SocketState :=
  match fuel with
  | 0 => (.ok acc, s)
  | fuel + 1 =>
    if hasMore s then
      match recvOne none s with
      | (.error e, s1) => (.error e, s1)
      | (.ok m, s1) => recvMultipleDynAux fuel (acc ++ [m]) s1
    else (.ok acc, s)

/-- Modelled from the spec: entry point of the dynamic
`SocketImpl::recvMultiple`; see `recvMultipleDynAux`. -/
def recvMultipleDyn (timeout : Option Nat) (s : SocketState) :
    Except Error (List Message) × SocketState :=
  match recvOne timeout s with
  | (.error e, s1) => (.error e, s1)
  | (.ok m, s1) =>
    if hasMore s1 then recvMultipleDynAux s1.frames.length [m] s1
    else (.ok [m], s1)

/-- Embedding of `SocketImpl::recvThriftObj` (`Socket.h`): `recvOne` with the
given timeout; on error return the receive error unchanged, else return the
decode of the received message (`Message::readThriftObj`, abstracted as the
`decode` argument). -/
def recvThriftObj {T : Type} (decode : Message → Except Error T)
    (timeout : Option Nat) (s : SocketState) : Except Error T × SocketState :=
  match recvOne timeout s with
  | (.error e, s1) => (.error e, s1)
  | (.ok m, s1) => (decode m, s1)

/-- Embedding of `SocketImpl::sendThriftObj` (`Socket.h`): encode the object
(`Message::fromThriftObj`, abstracted as the `encode` argument); on encode
error return it without touching the socket, else `sendOne` the encoded
message. -/
def sendThriftObj {T : Type} (encode : T → Except Error Message) (obj : T)
    (s : SocketState) : Except Error Nat × SocketState :=
  match encode obj with
  | .error e => (.error e, s)
  | .ok m => sendOne m s

/-- Embedding of `SocketImpl::isNonBlocking` (`Socket.h`):
`baseFlags_ & ZMQ_DONTWAIT`.  The method is `const`; the state component of
the pair records that it leaves the socket untouched. -/
def isNonBlocking (s : SocketState) : Bool × SocketState :=
  (decide (s.baseFlags &&& ZMQ_DONTWAIT ≠ 0), s)

/-- Embedding of `SocketImpl::getKeyPair` (`Socket.h`): returns `keyPair_`.
The method is `const`; the state component of the pair records that it
leaves the socket untouched. -/
def getKeyPair (s : SocketState) : Option KeyPair × SocketState :=
  (s.keyPair, s)

/-- Modelled from the spec: `hasMore` as a full operation.  Its body (in
`Socket.cpp`, outside the provided sources) reads the `ZMQ_RCVMORE` socket
option; the spec classes it "side-effect-free except that it reflects
socket-internal state mutated by the most recent receive". -/
def hasMoreOp (s : SocketState) : Bool × SocketState :=
  (hasMore s, s)

/-- Modelled from the spec: the state a `SocketImpl` constructor establishes
(bodies in `Socket.cpp`, outside the provided sources): stores the role
flag, the optional key pair and the non-blocking flag (`ZMQ_DONTWAIT` into
`baseFlags_`), and allocates a fresh handle (abstracted as handle `h`). -/
def construct (h : Nat) (isServer : Bool) (keyPair : Option KeyPair)
    (isNonblocking : Bool) : SocketState :=
  { ptr := some h
    baseFlags := if isNonblocking then ZMQ_DONTWAIT else 0
    isServer := isServer
    keyPair := keyPair }

/-- Modelled from the spec: `SocketImpl::bind` (body in `Socket.cpp`, outside
the provided sources): registers the url as a bound endpoint. -/
def bind (url : String) (s : SocketState) :
    Except Error Unit × SocketState :=
  (.ok (), { s with boundUrls := s.boundUrls ++ [url] })

/-- Modelled from the spec: `SocketImpl::unbind` (body in `Socket.cpp`,
outside the provided sources): removes the url from the bound endpoints. -/
def unbind (url : String) (s : SocketState) :
    Except Error Unit × SocketState :=
  (.ok (), { s with boundUrls := s.boundUrls.filter (· ≠ url) })

/-- Modelled from the spec: `SocketImpl::connect` (body in `Socket.cpp`,
outside the provided sources): registers the url as a connected
endpoint. -/
def connect (url : String) (s : SocketState) :
    Except Error Unit × SocketState :=
  (.ok (), { s with connectedUrls := s.connectedUrls ++ [url] })

/-- Modelled from the spec: `SocketImpl::disconnect` (body in `Socket.cpp`,
outside the provided sources): removes the url from the connected
endpoints. -/
def disconnect (url : String) (s : SocketState) :
    Except Error Unit × SocketState :=
  (.ok (), { s with connectedUrls := s.connectedUrls.filter (· ≠ url) })

/-- Modelled from the spec: `SocketImpl::addServerKey` (body in `Socket.cpp`,
outside the provided sources): records the peer public key for the url in
`serverKeys_`. -/
def addServerKey (url key : String) (s : SocketState) :
    Except Error Unit × SocketState :=
  (.ok (), { s with
      serverKeys := (s.serverKeys.filter (·.1 ≠ url)) ++ [(url, key)] })

/-- Modelled from the spec: `SocketImpl::delServerKey` (body in `Socket.cpp`,
outside the provided sources): erases the url's entry from
`serverKeys_`. -/
def delServerKey (url : String) (s : SocketState) :
    Except Error Unit × SocketState :=
  (.ok (), { s with serverKeys := s.serverKeys.filter (·.1 ≠ url) })

/-- Modelled from the spec: the move constructor / move assignment of
`SocketImpl` (declared `noexcept` at `Socket.h` lines 108-109, bodies in
`Socket.cpp`, outside the provided sources): "moving a live socket must
transfer its handle, its registered event-loop interest, and any pending
waiter state"; "ownership transfers, source becomes null".  Returns
(destination, moved-from source). -/
def moveSocket (s : SocketState) : SocketState × SocketState :=
  (s, { s with ptr := none, waitEvents := 0 })

end SocketImpl

/-- Embedding of `ServerSocketImpl` (`Socket.h`): re-exposes the protected
`bind`/`unbind` of `SocketImpl` by delegation
(`return SocketImpl::bind(std::move(url))`). -/
def ServerSocketImpl.bind (url : String) (s : SocketState) :
    Except Error Unit × SocketState :=
  SocketImpl.bind url s

/-- Embedding of `ServerSocketImpl::unbind` (`Socket.h`): delegation to
`SocketImpl::unbind`. -/
def ServerSocketImpl.unbind (url : String) (s : SocketState) :
    Except Error Unit × SocketState :=
  SocketImpl.unbind url s

/-- Embedding of `ClientSocketImpl::connect` (`Socket.h`): delegation to
`SocketImpl::connect`. -/
def ClientSocketImpl.connect (url : String) (s : SocketState) :
    Except Error Unit × SocketState :=
  SocketImpl.connect url s

/-- Embedding of `ClientSocketImpl::disconnect` (`Socket.h`): delegation to
`SocketImpl::disconnect`. -/
def ClientSocketImpl.disconnect (url : String) (s : SocketState) :
    Except Error Unit × SocketState :=
  SocketImpl.disconnect url s

/-- Embedding of `ClientSocketImpl::addServerKey` (`Socket.h`): delegation to
`SocketImpl::addServerKey`. -/
def ClientSocketImpl.addServerKey (url key : String) (s : SocketState) :
    Except Error Unit × SocketState :=
  SocketImpl.addServerKey url key s

/-- Embedding of `ClientSocketImpl::delServerKey` (`Socket.h`): delegation to
`SocketImpl::delServerKey`. -/
def ClientSocketImpl.delServerKey (url : String) (s : SocketState) :
    Except Error Unit × SocketState :=
  SocketImpl.delServerKey url s

/-- Embedding of the `Socket<SocketType, ZMQ_SERVER>` constructor
(`Socket.h`): forwards to `ServerSocketImpl(SocketType, true, args...)`,
i.e. constructs the core with the is-server flag `true`. -/
def Socket.constructServer (h : Nat) (keyPair : Option KeyPair)
    (isNonblocking : Bool) : SocketState :=
  SocketImpl.construct h true keyPair isNonblocking

/-- Embedding of the `Socket<SocketType, ZMQ_CLIENT>` constructor
(`Socket.h`): forwards to `ClientSocketImpl(SocketType, false, args...)`,
i.e. constructs the core with the is-server flag `false`. -/
def Socket.constructClient (h : Nat) (keyPair : Option KeyPair)
    (isNonblocking : Bool) : SocketState :=
  SocketImpl.construct h false keyPair isNonblocking

/-- The fallible operations named by the propagation-policy claim, as
declared in `Socket.h`. -/
inductive OpName
  | setSockOpt | getSockOpt | setKeepAlive
  | recvOne | sendOne | sendMore
  | bind | unbind | connect | disconnect
  | addServerKey | delServerKey
deriving DecidableEq, Repr

/-- Transcription of the exception specifications in `Socket.h`: whether the
operation's declaration carries `noexcept`. -/
def opIsNoexcept : OpName → Bool
  | .setSockOpt => true -- Socket.h lines 114-115
  | .getSockOpt => true -- Socket.h lines 116-117
  | .setKeepAlive => true -- Socket.h lines 123-127
  | .recvOne => true -- Socket.h lines 158-160
  | .sendOne => true -- Socket.h line 236
  | .sendMore => true -- Socket.h line 238
  | .bind => true -- Socket.h line 342
  | .unbind => true -- Socket.h line 344
  | .connect => true -- Socket.h line 346
  | .disconnect => true -- Socket.h line 348
  | .addServerKey => true -- Socket.h lines 350-351
  | .delServerKey => true -- Socket.h line 353

/-- Transcription of the return types in `Socket.h`: whether the operation
returns a `folly::Expected<..., Error>` (value-or-tagged-error). -/
def opReturnsExpected : OpName → Bool
  | .setSockOpt => true -- folly::Expected<folly::Unit, Error>
  | .getSockOpt => true -- folly::Expected<folly::Unit, Error>
  | .setKeepAlive => true -- folly::Expected<folly::Unit, Error>
  | .recvOne => true -- folly::Expected<Message, Error>
  | .sendOne => true -- folly::Expected<size_t, Error>
  | .sendMore => true -- folly::Expected<size_t, Error>
  | .bind => true -- folly::Expected<folly::Unit, Error>
  | .unbind => true -- folly::Expected<folly::Unit, Error>
  | .connect => true -- folly::Expected<folly::Unit, Error>
  | .disconnect => true -- folly::Expected<folly::Unit, Error>
  | .addServerKey => true -- folly::Expected<folly::Unit, Error>
  | .delServerKey => true -- folly::Expected<folly::Unit, Error>

/-- Transcription of the copy-control declarations of `SocketImpl`
(`Socket.h` lines 102-109): copy construction and copy assignment are
`= delete`; move construction and move assignment are declared
(`noexcept`). -/
structure CopyControl where
  copyCtorDeleted : Bool
  copyAssignDeleted : Bool
  moveCtorDeclared : Bool
  moveAssignDeclared : Bool
deriving DecidableEq, Repr

/-- The copy-control facts of `SocketImpl` as written in `Socket.h`. -/
def socketImplCopyControl : CopyControl :=
  { copyCtorDeleted := true -- line 102: SocketImpl(SocketImpl const&) = delete
    copyAssignDeleted := true -- line 103: operator=(SocketImpl const&) = delete
    moveCtorDeclared := true -- line 108: SocketImpl(SocketImpl&&) noexcept
    moveAssignDeclared := true } -- line 109: operator=(SocketImpl&&) noexcept

/-- The public methods `ServerSocketImpl` adds on top of the shared core
(`Socket.h` lines 447-464), in declaration order. -/
def serverFacadeOps : List String := ["bind", "unbind"]

/-- The public methods `ClientSocketImpl` adds on top of the shared core
(`Socket.h` lines 466-497), in declaration order. -/
def clientFacadeOps : List String :=
  ["connect", "disconnect", "addServerKey", "delServerKey"]

/-- Attaches to each frame of a logical message the "more" flag the wire
carries: `true` on every frame except the last. -/
def mkFrames : List Message → List (Message × Bool)
  | [] => []
  | [m] => [(m, false)]
  | m :: m2 :: rest => (m, true) :: mkFrames (m2 :: rest)

/-- Iterates `k` single-frame receives (with no timeout) and returns the
resulting socket state; used to observe the `hasMore` value after each frame
of a multi-part message. -/
def recvN : Nat → SocketState → SocketState
  | 0, s => s
  | k + 1, s => recvN k (SocketImpl.recvOne none s).2

/-! ## Helper lemmas -/

theorem mkFrames_length (ms : List Message) : (mkFrames ms).length = ms.length := by
  induction ms with
  | nil => rfl
  | cons m tl ih =>
    cases tl with
    | nil => rfl
    | cons m2 tl2 => simpa [mkFrames] using ih

theorem mkFrames_cons_cons (m m2 : Message) (tl : List Message) :
    mkFrames (m :: m2 :: tl) = (m, true) :: mkFrames (m2 :: tl) := rfl

theorem recvOne_cons (T : Option Nat) (s : SocketState) (m : Message) (b : Bool)
    (rest : List (Message × Bool)) (hf : s.frames = (m, b) :: rest) :
    SocketImpl.recvOne T s =
      (.ok m,
       { s with recvTimeouts := s.recvTimeouts ++ [T], frames := rest,
                rcvMore := b }) := by
  simp [SocketImpl.recvOne, hf]

/-- Receiving a logical message of exactly the static arity succeeds, fills
every slot in order, leaves the trailing frames untouched, uses the caller
timeout only on the first receive, and ends with the more flag clear. -/
theorem recvMultipleTimeoutN_exact (ms : List Message) :
    ∀ (T : Option Nat) (tail : List (Message × Bool)) (s : SocketState),
    s.frames = mkFrames ms ++ tail → ms ≠ [] →
    SocketImpl.recvMultipleTimeoutN T ms.length s =
      (ms, .ok (),
       { s with frames := tail, rcvMore := false,
                recvTimeouts :=
                  s.recvTimeouts ++ T :: List.replicate (ms.length - 1) none }) := by
  induction ms with
  | nil => intro T tail s hf hne; exact absurd rfl hne
  | cons m tl ih =>
    intro T tail s hf hne
    cases tl with
    | nil =>
      simp only [mkFrames, List.cons_append, List.nil_append] at hf
      simp [SocketImpl.recvMultipleTimeoutN, recvOne_cons T s m false tail hf,
        SocketImpl.hasMore]
    | cons m2 tl2 =>
      rw [mkFrames_cons_cons, List.cons_append] at hf
      have hstep := recvOne_cons T s m true (mkFrames (m2 :: tl2) ++ tail) hf
      have hrec := ih none tail
        { s with recvTimeouts := s.recvTimeouts ++ [T],
                 frames := mkFrames (m2 :: tl2) ++ tail, rcvMore := true }
        rfl (by simp)
      show SocketImpl.recvMultipleTimeoutN T (tl2.length + 1 + 1) s = _
      simp only [SocketImpl.recvMultipleTimeoutN, hstep, SocketImpl.hasMore]
      simp only [List.length_cons] at hrec
      simp [hrec, List.replicate_succ]

/-- Receiving with a static arity larger than the logical message: every
actually-sent frame is moved into its slot, then the missing continuation is
detected and `EPROTO` is returned; only the first receive saw the caller
timeout. -/
theorem recvMultipleTimeoutN_tooFew (ms : List Message) :
    ∀ (n : Nat) (T : Option Nat) (tail : List (Message × Bool)) (s : SocketState),
    s.frames = mkFrames ms ++ tail → ms ≠ [] → ms.length < n →
    SocketImpl.recvMultipleTimeoutN T n s =
      (ms, .error ⟨EPROTO⟩,
       { s with frames := tail, rcvMore := false,
                recvTimeouts :=
                  s.recvTimeouts ++ T :: List.replicate (ms.length - 1) none }) := by
  induction ms with
  | nil => intro n T tail s hf hne hlt; exact absurd rfl hne
  | cons m tl ih =>
    intro n T tail s hf hne hlt
    obtain ⟨k, rfl⟩ : ∃ k, n = k + 2 := ⟨n - 2, by simp at hlt; omega⟩
    cases tl with
    | nil =>
      simp only [mkFrames, List.cons_append, List.nil_append] at hf
      simp [SocketImpl.recvMultipleTimeoutN, recvOne_cons T s m false tail hf,
        SocketImpl.hasMore]
    | cons m2 tl2 =>
      rw [mkFrames_cons_cons, List.cons_append] at hf
      have hstep := recvOne_cons T s m true (mkFrames (m2 :: tl2) ++ tail) hf
      have hrec := ih (k + 1) none tail
        { s with recvTimeouts := s.recvTimeouts ++ [T],
                 frames := mkFrames (m2 :: tl2) ++ tail, rcvMore := true }
        rfl (by simp) (by simp at hlt ⊢; omega)
      simp only [SocketImpl.recvMultipleTimeoutN, hstep, SocketImpl.hasMore]
      simp only [List.length_cons] at hrec
      simp [hrec, List.replicate_succ]

/-- Receiving with a static arity smaller than the logical message: the first
`n` frames are moved into the slots, the base case then sees the more flag
still set and returns `EPROTO`; the surplus frames stay queued on the socket
and only the first receive saw the caller timeout. -/
theorem recvMultipleTimeoutN_tooMany (ms : List Message) :
    ∀ (n : Nat) (T : Option Nat) (tail : List (Message × Bool)) (s : SocketState),
    s.frames = mkFrames ms ++ tail → 1 ≤ n → n < ms.length →
    SocketImpl.recvMultipleTimeoutN T n s =
      (ms.take n, .error ⟨EPROTO⟩,
       { s with frames := (mkFrames ms).drop n ++ tail, rcvMore := true,
                recvTimeouts :=
                  s.recvTimeouts ++ T :: List.replicate (n - 1) none }) := by
  induction ms with
  | nil => intro n T tail s hf h1 hlt; simp at hlt
  | cons m tl ih =>
    intro n T tail s hf h1 hlt
    cases tl with
    | nil => simp at hlt; omega
    | cons m2 tl2 =>
      rw [mkFrames_cons_cons, List.cons_append] at hf
      have hstep := recvOne_cons T s m true (mkFrames (m2 :: tl2) ++ tail) hf
      match n, h1 with
      | 1, _ =>
        simp [SocketImpl.recvMultipleTimeoutN, hstep, SocketImpl.hasMore,
          mkFrames_cons_cons]
      | k + 2, _ =>
        have hrec := ih (k + 1) none tail
          { s with recvTimeouts := s.recvTimeouts ++ [T],
                   frames := mkFrames (m2 :: tl2) ++ tail, rcvMore := true }
          rfl (by omega) (by simp at hlt ⊢; omega)
        simp only [SocketImpl.recvMultipleTimeoutN, hstep, SocketImpl.hasMore]
        simp [hrec, List.replicate_succ, mkFrames_cons_cons]

theorem recvOne_trace (T : Option Nat) (s : SocketState) :
    ((SocketImpl.recvOne T s).2).recvTimeouts = s.recvTimeouts ++ [T] := by
  rcases hf : s.frames with _ | ⟨⟨m, b⟩, rest⟩ <;> rcases T with _ | t <;>
    simp [SocketImpl.recvOne, hf]

theorem recvOne_none_not_timedout (s : SocketState) (e : Error) (s2 : SocketState)
    (h : SocketImpl.recvOne none s = (.error e, s2)) : e ≠ ⟨ETIMEDOUT⟩ := by
  rcases hf : s.frames with _ | ⟨⟨m, b⟩, rest⟩ <;>
    simp [SocketImpl.recvOne, hf] at h
  · rcases h with ⟨h1, _⟩
    rw [← h1]
    decide

/-- With no timeout, no receive of the static multi-receive can produce
`ETIMEDOUT`: an empty queue stands for an indefinite wait and an arity
mismatch yields `EPROTO`. -/
theorem recvMultipleTimeoutN_none_not_timedout (n : Nat) :
    ∀ (s : SocketState),
    (SocketImpl.recvMultipleTimeoutN none n s).2.1 ≠ .error ⟨ETIMEDOUT⟩ := by
  induction n using Nat.strong_induction_on with
  | _ n ih =>
    intro s
    match n with
    | 0 => simp [SocketImpl.recvMultipleTimeoutN]
    | 1 =>
      rcases hE : SocketImpl.recvOne none s with ⟨r, s1⟩
      rcases r with e | m
      · have hne := recvOne_none_not_timedout s e s1 hE
        simp [SocketImpl.recvMultipleTimeoutN, hE, hne]
      · by_cases hm : SocketImpl.hasMore s1 <;>
          simp [SocketImpl.recvMultipleTimeoutN, hE, hm, EPROTO, ETIMEDOUT]
    | k + 2 =>
      rcases hE : SocketImpl.recvOne none s with ⟨r, s1⟩
      rcases r with e | m
      · have hne := recvOne_none_not_timedout s e s1 hE
        simp [SocketImpl.recvMultipleTimeoutN, hE, hne]
      · by_cases hm : SocketImpl.hasMore s1
        · have hrec := ih (k + 1) (by omega) s1
          rcases h2 : SocketImpl.recvMultipleTimeoutN none (k + 1) s1
            with ⟨ms2, r2, s2⟩
          simp only [h2] at hrec
          simp [SocketImpl.recvMultipleTimeoutN, hE, hm, h2]
          intro hcontra
          exact hrec (by rw [hcontra])
        · simp [SocketImpl.recvMultipleTimeoutN, hE, hm, EPROTO, ETIMEDOUT]

/-- Only the first receive of the static multi-receive carries the caller
timeout: the trace of timeouts handed to the low-level receives is the
caller's value followed by some number of empty timeouts. -/
theorem recvMultipleTimeoutN_trace (n : Nat) :
    ∀ (T : Option Nat) (s : SocketState), 1 ≤ n →
    ∃ k, ((SocketImpl.recvMultipleTimeoutN T n s).2.2).recvTimeouts =
      s.recvTimeouts ++ T :: List.replicate k none := by
  induction n using Nat.strong_induction_on with
  | _ n ih =>
    intro T s h1
    match n with
    | 1 =>
      rcases hE : SocketImpl.recvOne T s with ⟨r, s1⟩
      have htr : s1.recvTimeouts = s.recvTimeouts ++ [T] := by
        have := recvOne_trace T s
        rw [hE] at this
        exact this
      rcases r with e | m
      · exact ⟨0, by simp [SocketImpl.recvMultipleTimeoutN, hE, htr]⟩
      · by_cases hm : SocketImpl.hasMore s1 <;>
          exact ⟨0, by simp [SocketImpl.recvMultipleTimeoutN, hE, hm, htr]⟩
    | k + 2 =>
      rcases hE : SocketImpl.recvOne T s with ⟨r, s1⟩
      have htr : s1.recvTimeouts = s.recvTimeouts ++ [T] := by
        have := recvOne_trace T s
        rw [hE] at this
        exact this
      rcases r with e | m
      · exact ⟨0, by simp [SocketImpl.recvMultipleTimeoutN, hE, htr]⟩
      · by_cases hm : SocketImpl.hasMore s1
        · obtain ⟨j, hj⟩ := ih (k + 1) (by omega) none s1 (by omega)
          rcases h2 : SocketImpl.recvMultipleTimeoutN none (k + 1) s1
            with ⟨ms2, r2, s2⟩
          simp only [h2] at hj
          refine ⟨j + 1, ?_⟩
          simp [SocketImpl.recvMultipleTimeoutN, hE, hm, h2, hj, htr,
            List.replicate_succ]
        · exact ⟨0, by simp [SocketImpl.recvMultipleTimeoutN, hE, hm, htr]⟩

/-- If the static multi-receive reports `ETIMEDOUT`, the failure came from
the very first receive: no slot was filled. -/
theorem recvMultipleTimeoutN_timedout_first (n : Nat) :
    ∀ (T : Option Nat) (s : SocketState),
    (SocketImpl.recvMultipleTimeoutN T n s).2.1 = .error ⟨ETIMEDOUT⟩ →
    (SocketImpl.recvMultipleTimeoutN T n s).1 = [] := by
  intro T s herr
  match n with
  | 0 => simp [SocketImpl.recvMultipleTimeoutN]
  | 1 =>
    rcases hE : SocketImpl.recvOne T s with ⟨r, s1⟩
    rcases r with e | m
    · simp [SocketImpl.recvMultipleTimeoutN, hE]
    · by_cases hm : SocketImpl.hasMore s1 <;>
        simp [SocketImpl.recvMultipleTimeoutN, hE, hm, EPROTO, ETIMEDOUT] at herr
  | k + 2 =>
    rcases hE : SocketImpl.recvOne T s with ⟨r, s1⟩
    rcases r with e | m
    · simp [SocketImpl.recvMultipleTimeoutN, hE]
    · by_cases hm : SocketImpl.hasMore s1
      · rcases h2 : SocketImpl.recvMultipleTimeoutN none (k + 1) s1
          with ⟨ms2, r2, s2⟩
        have hno := recvMultipleTimeoutN_none_not_timedout (k + 1) s1
        rw [h2] at hno
        simp [SocketImpl.recvMultipleTimeoutN, hE, hm, h2] at herr
        exact absurd (by rw [herr]) hno
      · simp [SocketImpl.recvMultipleTimeoutN, hE, hm, EPROTO, ETIMEDOUT] at herr

/-- With every low-level send succeeding, the static multi-send ships the
frames in order — all of them under the more flag except the last — and
returns the total byte count. -/
theorem sendMultipleN_ok (msgs : List Message) :
    ∀ (s : SocketState), msgs ≠ [] → s.sendOutcomes = [] →
    SocketImpl.sendMultipleN false msgs s =
      (.ok (msgs.map Message.size).sum,
       { s with sentLog := s.sentLog ++ mkFrames msgs,
                isSendingMore := false }) := by
  induction msgs with
  | nil => intro s hne h0; exact absurd rfl hne
  | cons m tl ih =>
    intro s hne h0
    cases tl with
    | nil =>
      simp [SocketImpl.sendMultipleN, SocketImpl.sendOne, SocketImpl.send, h0,
        mkFrames]
    | cons m2 tl2 =>
      have hrec := ih
        { s with sendOutcomes := [], sentLog := s.sentLog ++ [(m, true)],
                 isSendingMore := true }
        (by simp) rfl
      simp only [SocketImpl.sendMultipleN, SocketImpl.sendMore,
        SocketImpl.send, h0]
      simp [hrec, mkFrames_cons_cons]

/-- If the low-level sends succeed `k` times and then fail with `e`, the
static multi-send surfaces `e`, ships exactly the first `k` frames (each
under the more flag) and leaves the frames after the failing one unsent. -/
theorem sendMultipleN_fail (msgs : List Message) :
    ∀ (k : Nat) (e : Error) (rest : List (Option Error)) (s : SocketState),
    k < msgs.length →
    s.sendOutcomes = List.replicate k none ++ some e :: rest →
    (SocketImpl.sendMultipleN false msgs s).1 = .error e
    ∧ (SocketImpl.sendMultipleN false msgs s).2.sentLog =
        s.sentLog ++ (msgs.take k).map (fun m => (m, true))
    ∧ (SocketImpl.sendMultipleN false msgs s).2.sendOutcomes = rest := by
  induction msgs with
  | nil => intro k e rest s hk h0; simp at hk
  | cons m tl ih =>
    intro k e rest s hk h0
    cases tl with
    | nil =>
      have hk0 : k = 0 := by simp at hk; omega
      subst hk0
      simp only [List.replicate, List.nil_append] at h0
      simp [SocketImpl.sendMultipleN, SocketImpl.sendOne, SocketImpl.send, h0]
    | cons m2 tl2 =>
      cases k with
      | zero =>
        simp only [List.replicate, List.nil_append] at h0
        simp [SocketImpl.sendMultipleN, SocketImpl.sendMore, SocketImpl.send,
          h0]
      | succ j =>
        rw [List.replicate_succ, List.cons_append] at h0
        have hrec := ih j e rest
          { s with sendOutcomes := List.replicate j none ++ some e :: rest,
                   sentLog := s.sentLog ++ [(m, true)], isSendingMore := true }
          (by simp at hk ⊢; omega) rfl
        rcases h2 : SocketImpl.sendMultipleN false (m2 :: tl2)
          { s with sendOutcomes := List.replicate j none ++ some e :: rest,
                   sentLog := s.sentLog ++ [(m, true)], isSendingMore := true }
          with ⟨r2, s2⟩
        simp only [h2] at hrec
        obtain ⟨hr2, hlog, hout⟩ := hrec
        subst hr2
        simp [SocketImpl.sendMultipleN, SocketImpl.sendMore, SocketImpl.send,
          h0, h2, hlog, hout]

theorem recvMultipleDynAux_stop (fuel : Nat) (acc : List Message)
    (s : SocketState) (h : SocketImpl.hasMore s = false) :
    SocketImpl.recvMultipleDynAux fuel acc s = (.ok acc, s) := by
  cases fuel <;> simp [SocketImpl.recvMultipleDynAux, h]

/-- The accumulation loop of the dynamic multi-receive: with the more flag
set and the remaining frames of the logical message queued, it receives them
all (each with no timeout) and stops at the frame whose more flag is
clear. -/
theorem recvMultipleDynAux_run (ms : List Message) :
    ∀ (fuel : Nat) (acc : List Message) (tail : List (Message × Bool))
      (s : SocketState),
    s.frames = mkFrames ms ++ tail → ms ≠ [] →
    SocketImpl.hasMore s = true → ms.length ≤ fuel →
    SocketImpl.recvMultipleDynAux fuel acc s =
      (.ok (acc ++ ms),
       { s with frames := tail, rcvMore := false,
                recvTimeouts :=
                  s.recvTimeouts ++ List.replicate ms.length none }) := by
  induction ms with
  | nil => intro fuel acc tail s hf hne hm hfuel; exact absurd rfl hne
  | cons m tl ih =>
    intro fuel acc tail s hf hne hm hfuel
    obtain ⟨f, rfl⟩ : ∃ f, fuel = f + 1 := ⟨fuel - 1, by simp at hfuel; omega⟩
    cases tl with
    | nil =>
      simp only [mkFrames, List.cons_append, List.nil_append] at hf
      have hstep := recvOne_cons none s m false tail hf
      have hstop := recvMultipleDynAux_stop f (acc ++ [m])
        { s with recvTimeouts := s.recvTimeouts ++ [none], frames := tail,
                 rcvMore := false } rfl
      simp only [SocketImpl.recvMultipleDynAux, hm, if_true, hstep]
      simp [hstop, List.replicate_succ]
    | cons m2 tl2 =>
      rw [mkFrames_cons_cons, List.cons_append] at hf
      have hstep := recvOne_cons none s m true (mkFrames (m2 :: tl2) ++ tail) hf
      have hrec := ih f (acc ++ [m]) tail
        { s with recvTimeouts := s.recvTimeouts ++ [none],
                 frames := mkFrames (m2 :: tl2) ++ tail, rcvMore := true }
        rfl (by simp) rfl (by simp at hfuel ⊢; omega)
      simp only [SocketImpl.recvMultipleDynAux, hm, if_true, hstep]
      simp [hrec, List.replicate_succ]

/-- The dynamic multi-receive reconstructs a queued logical message exactly:
it returns the frames in order, consumes precisely that message, uses the
caller timeout only for the first frame, and ends with the more flag
clear. -/
theorem recvMultipleDyn_run (ms : List Message) (T : Option Nat)
    (tail : List (Message × Bool)) (s : SocketState)
    (hf : s.frames = mkFrames ms ++ tail) (hne : ms ≠ []) :
    SocketImpl.recvMultipleDyn T s =
      (.ok ms,
       { s with frames := tail, rcvMore := false,
                recvTimeouts :=
                  s.recvTimeouts ++ T :: List.replicate (ms.length - 1) none }) := by
  cases ms with
  | nil => exact absurd rfl hne
  | cons m tl =>
    cases tl with
    | nil =>
      simp only [mkFrames, List.cons_append, List.nil_append] at hf
      have hstep := recvOne_cons T s m false tail hf
      simp [SocketImpl.recvMultipleDyn, hstep, SocketImpl.hasMore]
    | cons m2 tl2 =>
      rw [mkFrames_cons_cons, List.cons_append] at hf
      have hstep := recvOne_cons T s m true (mkFrames (m2 :: tl2) ++ tail) hf
      have hrec := recvMultipleDynAux_run (m2 :: tl2)
        ((mkFrames (m2 :: tl2)).length + tail.length) [m] tail
        { s with recvTimeouts := s.recvTimeouts ++ [T],
                 frames := mkFrames (m2 :: tl2) ++ tail, rcvMore := true }
        rfl (by simp) rfl (by rw [mkFrames_length]; omega)
      simp only [SocketImpl.recvMultipleDyn, hstep, SocketImpl.hasMore]
      simp [hrec, List.replicate_succ]

/-- After receiving the `(k+1)`-th frame of a queued logical message, the
more flag is set exactly when frames of that message remain. -/
theorem recvN_hasMore (ms : List Message) :
    ∀ (k : Nat) (tail : List (Message × Bool)) (s : SocketState),
    s.frames = mkFrames ms ++ tail → k < ms.length →
    (SocketImpl.hasMore (recvN (k + 1) s) = true ↔ k + 1 < ms.length) := by
  induction ms with
  | nil => intro k tail s hf hk; simp at hk
  | cons m tl ih =>
    intro k tail s hf hk
    cases tl with
    | nil =>
      have hk0 : k = 0 := by simp at hk; omega
      subst hk0
      simp only [mkFrames, List.cons_append, List.nil_append] at hf
      have hstep := recvOne_cons none s m false tail hf
      simp [recvN, hstep, SocketImpl.hasMore]
    | cons m2 tl2 =>
      rw [mkFrames_cons_cons, List.cons_append] at hf
      have hstep := recvOne_cons none s m true (mkFrames (m2 :: tl2) ++ tail) hf
      cases k with
      | zero =>
        simp only [recvN, hstep]
        simp [SocketImpl.hasMore]
      | succ j =>
        have hrec := ih j tail
          { s with recvTimeouts := s.recvTimeouts ++ [none],
                   frames := mkFrames (m2 :: tl2) ++ tail, rcvMore := true }
          rfl (by simp at hk ⊢; omega)
        simp only [recvN] at hrec
        simp only [recvN, hstep]
        simp only [List.length_cons] at hrec ⊢
        rw [hrec]
        omega

/-! ## Claim theorems -/

/-- C1: a static multi-receive of arity `n` on a logical message of any other
frame count returns the protocol-violation error `EPROTO` — after the last
actually-sent frame when the message is shorter, after the `n`-th frame when
it is longer — and the slots filled before the error was detected hold
exactly the first `min n N` frames, in order. -/
theorem recvMultiple_arity_mismatch_eproto
    (T : Option Nat) (n : Nat) (ms : List Message)
    (tail : List (Message × Bool)) (s : SocketState)
    (hf : s.frames = mkFrames ms ++ tail)
    (hms : 1 ≤ ms.length) (hn : 1 ≤ n) (hne : ms.length ≠ n) :
    (SocketImpl.recvMultipleTimeoutN T n s).2.1 = .error ⟨EPROTO⟩
    ∧ (SocketImpl.recvMultipleTimeoutN T n s).1 = ms.take n := by
  have hnil : ms ≠ [] := List.length_pos.mp hms
  rcases Nat.lt_or_ge ms.length n with hlt | hge
  · have h := recvMultipleTimeoutN_tooFew ms n T tail s hf hnil hlt
    rw [h]
    exact ⟨rfl, (List.take_of_length_le (Nat.le_of_lt hlt)).symm⟩
  · have hlt2 : n < ms.length := lt_of_le_of_ne hge (Ne.symm hne)
    have h := recvMultipleTimeoutN_tooMany ms n T tail s hf hn hlt2
    rw [h]
    exact ⟨rfl, rfl⟩

theorem recvMultiple_arity_mismatch_eproto_witness :
    (SocketImpl.recvMultipleTimeoutN none 2
        { frames := mkFrames [⟨[1]⟩, ⟨[2]⟩, ⟨[3]⟩] }).2.1 = .error ⟨EPROTO⟩
    ∧ (SocketImpl.recvMultipleTimeoutN none 2
        { frames := mkFrames [⟨[1]⟩, ⟨[2]⟩, ⟨[3]⟩] }).1 =
      ([⟨[1]⟩, ⟨[2]⟩, ⟨[3]⟩] : List Message).take 2 :=
  recvMultiple_arity_mismatch_eproto none 2 [⟨[1]⟩, ⟨[2]⟩, ⟨[3]⟩] []
    { frames := mkFrames [⟨[1]⟩, ⟨[2]⟩, ⟨[3]⟩] } (by decide) (by decide)
    (by decide) (by decide)

/-- C2: in a static multi-receive of arity `n` with caller timeout `T`, only
the first low-level receive is handed `T` — every subsequent one is handed
the empty timeout — and a resulting `ETIMEDOUT` can only stem from the first
frame's receive, before any slot was filled. -/
theorem recvMultiple_timeout_first_frame_only
    (T : Option Nat) (n : Nat) (s : SocketState) (hn : 1 ≤ n) :
    (∃ k, ((SocketImpl.recvMultipleTimeoutN T n s).2.2).recvTimeouts =
        s.recvTimeouts ++ T :: List.replicate k none)
    ∧ ((SocketImpl.recvMultipleTimeoutN T n s).2.1 = .error ⟨ETIMEDOUT⟩ →
        (SocketImpl.recvMultipleTimeoutN T n s).1 = []) :=
  ⟨recvMultipleTimeoutN_trace n T s hn,
   recvMultipleTimeoutN_timedout_first n T s⟩

theorem recvMultiple_timeout_first_frame_only_witness :
    (∃ k, ((SocketImpl.recvMultipleTimeoutN (some 5) 2
        { frames := mkFrames [⟨[1]⟩, ⟨[2]⟩] }).2.2).recvTimeouts =
      ({ frames := mkFrames [⟨[1]⟩, ⟨[2]⟩] } : SocketState).recvTimeouts ++
        some 5 :: List.replicate k none)
    ∧ ((SocketImpl.recvMultipleTimeoutN (some 5) 2
        { frames := mkFrames [⟨[1]⟩, ⟨[2]⟩] }).2.1 = .error ⟨ETIMEDOUT⟩ →
      (SocketImpl.recvMultipleTimeoutN (some 5) 2
        { frames := mkFrames [⟨[1]⟩, ⟨[2]⟩] }).1 = []) :=
  recvMultiple_timeout_first_frame_only (some 5) 2
    { frames := mkFrames [⟨[1]⟩, ⟨[2]⟩] } (by decide)

/-- C10: when a static multi-receive of arity `n` fails with the
protocol-violation error because more frames follow the `n`-th one, the call
performs no further receive — exactly `n` low-level receives appear in the
trace — and the surplus frames of the message are left queued on the
socket. -/
theorem recvMultiple_surplus_frames_left_unread
    (T : Option Nat) (n : Nat) (ms : List Message)
    (tail : List (Message × Bool)) (s : SocketState)
    (hf : s.frames = mkFrames ms ++ tail) (hn : 1 ≤ n)
    (hlt : n < ms.length) :
    (SocketImpl.recvMultipleTimeoutN T n s).2.1 = .error ⟨EPROTO⟩
    ∧ (SocketImpl.recvMultipleTimeoutN T n s).2.2.frames =
        (mkFrames ms).drop n ++ tail
    ∧ (SocketImpl.recvMultipleTimeoutN T n s).2.2.recvTimeouts =
        s.recvTimeouts ++ T :: List.replicate (n - 1) none := by
  have h := recvMultipleTimeoutN_tooMany ms n T tail s hf hn hlt
  rw [h]
  exact ⟨rfl, rfl, rfl⟩

theorem recvMultiple_surplus_frames_left_unread_witness :
    (SocketImpl.recvMultipleTimeoutN none 1
        { frames := mkFrames [⟨[1]⟩, ⟨[2]⟩] }).2.1 = .error ⟨EPROTO⟩
    ∧ (SocketImpl.recvMultipleTimeoutN none 1
        { frames := mkFrames [⟨[1]⟩, ⟨[2]⟩] }).2.2.frames =
      (mkFrames [⟨[1]⟩, ⟨[2]⟩]).drop 1 ++ []
    ∧ (SocketImpl.recvMultipleTimeoutN none 1
        { frames := mkFrames [⟨[1]⟩, ⟨[2]⟩] }).2.2.recvTimeouts =
      ({ frames := mkFrames [⟨[1]⟩, ⟨[2]⟩] } : SocketState).recvTimeouts ++
        none :: List.replicate (1 - 1) none :=
  recvMultiple_surplus_frames_left_unread none 1 [⟨[1]⟩, ⟨[2]⟩] []
    { frames := mkFrames [⟨[1]⟩, ⟨[2]⟩] } (by decide) (by decide) (by decide)

/-- C3: the static multi-send with the default template flag sends every
frame but the last with the more flag and the last without (the shipped-
frame log grows by exactly `mkFrames msgs`); on the all-succeeded path the
returned byte count is the sum of the individual byte counts; and when the
`k`-th low-level send fails, its error is surfaced and no frame after the
failing one is shipped. -/
theorem sendMultiple_flags_sum_first_error
    (msgs : List Message) (s : SocketState) (hne : msgs ≠ []) :
    (s.sendOutcomes = [] →
      SocketImpl.sendMultipleN false msgs s =
        (.ok (msgs.map Message.size).sum,
         { s with sentLog := s.sentLog ++ mkFrames msgs,
                  isSendingMore := false }))
    ∧ (∀ (k : Nat) (e : Error) (rest : List (Option Error)),
        k < msgs.length →
        s.sendOutcomes = List.replicate k none ++ some e :: rest →
        (SocketImpl.sendMultipleN false msgs s).1 = .error e
        ∧ (SocketImpl.sendMultipleN false msgs s).2.sentLog =
            s.sentLog ++ (msgs.take k).map (fun m => (m, true))) := by
  constructor
  · intro h0
    exact sendMultipleN_ok msgs s hne h0
  · intro k e rest hk h0
    obtain ⟨h1, h2, _⟩ := sendMultipleN_fail msgs k e rest s hk h0
    exact ⟨h1, h2⟩

theorem sendMultiple_flags_sum_first_error_witness :
    SocketImpl.sendMultipleN false [⟨[1, 2]⟩, ⟨[3]⟩] {} =
      (.ok (([⟨[1, 2]⟩, ⟨[3]⟩] : List Message).map Message.size).sum,
       { ({} : SocketState) with
           sentLog := ({} : SocketState).sentLog ++ mkFrames [⟨[1, 2]⟩, ⟨[3]⟩],
           isSendingMore := false }) :=
  (sendMultiple_flags_sum_first_error [⟨[1, 2]⟩, ⟨[3]⟩] {} (by decide)).1 rfl

/-- C5: round-trip law.  Sending a non-empty frame sequence with the static
multi-send (equivalently, `sendMore` on all but the last frame and `sendOne`
on the last — that is exactly how the multi-send decomposes) and delivering
the shipped frames to a peer socket, the peer's dynamic `recvMultiple`
returns the byte-identical frames in order, a static multi-receive of the
matching arity fills its slots with them and succeeds, and after receiving
each frame the peer's `hasMore` is true exactly until the last frame. -/
theorem sendMultiple_recvMultiple_roundtrip
    (ms : List Message) (T : Option Nat) (sSend r : SocketState)
    (hne : ms ≠ []) (hout : sSend.sendOutcomes = [])
    (hlog : sSend.sentLog = [])
    (hf : r.frames = (SocketImpl.sendMultipleN false ms sSend).2.sentLog) :
    (SocketImpl.sendMultipleN false ms sSend).1 =
        .ok (ms.map Message.size).sum
    ∧ (SocketImpl.recvMultipleDyn T r).1 = .ok ms
    ∧ (SocketImpl.recvMultipleTimeoutN T ms.length r).1 = ms
    ∧ (SocketImpl.recvMultipleTimeoutN T ms.length r).2.1 = .ok ()
    ∧ (∀ k, k < ms.length →
        (SocketImpl.hasMore (recvN (k + 1) r) = true ↔ k + 1 < ms.length)) := by
  have hsend := sendMultipleN_ok ms sSend hne hout
  have hfr : r.frames = mkFrames ms ++ [] := by
    rw [hf, hsend]
    simp [hlog]
  have hdyn := recvMultipleDyn_run ms T [] r hfr hne
  have hstat := recvMultipleTimeoutN_exact ms T [] r hfr hne
  refine ⟨by rw [hsend], by rw [hdyn], by rw [hstat], by rw [hstat], ?_⟩
  intro k hk
  exact recvN_hasMore ms k [] r hfr hk

theorem sendMultiple_recvMultiple_roundtrip_witness :
    (SocketImpl.sendMultipleN false [⟨[1]⟩, ⟨[2]⟩] {}).1 =
      .ok (([⟨[1]⟩, ⟨[2]⟩] : List Message).map Message.size).sum
    ∧ (SocketImpl.recvMultipleDyn none
        { frames := (SocketImpl.sendMultipleN false [⟨[1]⟩, ⟨[2]⟩] {}).2.sentLog }).1 =
      .ok [⟨[1]⟩, ⟨[2]⟩]
    ∧ (SocketImpl.recvMultipleTimeoutN none ([⟨[1]⟩, ⟨[2]⟩] : List Message).length
        { frames := (SocketImpl.sendMultipleN false [⟨[1]⟩, ⟨[2]⟩] {}).2.sentLog }).1 =
      [⟨[1]⟩, ⟨[2]⟩]
    ∧ (SocketImpl.recvMultipleTimeoutN none ([⟨[1]⟩, ⟨[2]⟩] : List Message).length
        { frames := (SocketImpl.sendMultipleN false [⟨[1]⟩, ⟨[2]⟩] {}).2.sentLog }).2.1 =
      .ok ()
    ∧ (∀ k, k < ([⟨[1]⟩, ⟨[2]⟩] : List Message).length →
        (SocketImpl.hasMore (recvN (k + 1)
            { frames := (SocketImpl.sendMultipleN false [⟨[1]⟩, ⟨[2]⟩] {}).2.sentLog }) = true ↔
          k + 1 < ([⟨[1]⟩, ⟨[2]⟩] : List Message).length)) :=
  sendMultiple_recvMultiple_roundtrip [⟨[1]⟩, ⟨[2]⟩] none {}
    { frames := (SocketImpl.sendMultipleN false [⟨[1]⟩, ⟨[2]⟩] {}).2.sentLog }
    (by decide) rfl rfl rfl

/-- C6: the thrift codec helpers propagate errors as the generic error type:
`recvThriftObj` returns the receive error unchanged when `recvOne` fails and
otherwise returns the decode result; `sendThriftObj` returns the encode
error and performs no send at all (the socket state is untouched) when
encoding fails, and otherwise is exactly `sendOne` of the encoded
message. -/
theorem thriftObj_codec_error_propagation {T : Type}
    (decode : Message → Except Error T) (encode : T → Except Error Message)
    (obj : T) (timeout : Option Nat) (s : SocketState) :
    (∀ e s1, SocketImpl.recvOne timeout s = (.error e, s1) →
        SocketImpl.recvThriftObj decode timeout s = (.error e, s1))
    ∧ (∀ m s1, SocketImpl.recvOne timeout s = (.ok m, s1) →
        SocketImpl.recvThriftObj decode timeout s = (decode m, s1))
    ∧ (∀ e, encode obj = .error e →
        SocketImpl.sendThriftObj encode obj s = (.error e, s))
    ∧ (∀ m, encode obj = .ok m →
        SocketImpl.sendThriftObj encode obj s = SocketImpl.sendOne m s) := by
  refine ⟨?_, ?_, ?_, ?_⟩ <;> intros <;>
    simp [SocketImpl.recvThriftObj, SocketImpl.sendThriftObj, *]

theorem thriftObj_codec_error_propagation_witness :
    SocketImpl.recvThriftObj (fun m => (.ok m.data : Except Error (List Nat)))
        none { frames := [(⟨[7]⟩, false)] } =
      (.ok [7],
       { frames := [], rcvMore := false, recvTimeouts := [none] })
    ∧ SocketImpl.sendThriftObj (fun l => (.ok ⟨l⟩ : Except Error Message))
        [7] { frames := [(⟨[7]⟩, false)] } =
      SocketImpl.sendOne ⟨[7]⟩ { frames := [(⟨[7]⟩, false)] } :=
  ⟨(thriftObj_codec_error_propagation (fun m => (.ok m.data : Except Error (List Nat)))
      (fun l => (.ok ⟨l⟩ : Except Error Message)) [7] none
      { frames := [(⟨[7]⟩, false)] }).2.1 ⟨[7]⟩
      { frames := [], rcvMore := false, recvTimeouts := [none] } rfl,
   (thriftObj_codec_error_propagation (fun m => (.ok m.data : Except Error (List Nat)))
      (fun l => (.ok ⟨l⟩ : Except Error Message)) [7] none
      { frames := [(⟨[7]⟩, false)] }).2.2.2 ⟨[7]⟩ rfl⟩

/-- C4: the role façades are pure capability gates: each façade method is
extensionally identical to the protected core method of the same name, the
method sets added by the two façades are exactly bind/unbind (server) and
connect/disconnect/addServerKey/delServerKey (client), and the server
specialization constructs the core with the is-server flag true while the
client specialization constructs it with the flag false. -/
theorem socket_facade_pure_delegation :
    (∀ url s, ServerSocketImpl.bind url s = SocketImpl.bind url s)
    ∧ (∀ url s, ServerSocketImpl.unbind url s = SocketImpl.unbind url s)
    ∧ (∀ url s, ClientSocketImpl.connect url s = SocketImpl.connect url s)
    ∧ (∀ url s, ClientSocketImpl.disconnect url s = SocketImpl.disconnect url s)
    ∧ (∀ url key s,
        ClientSocketImpl.addServerKey url key s = SocketImpl.addServerKey url key s)
    ∧ (∀ url s, ClientSocketImpl.delServerKey url s = SocketImpl.delServerKey url s)
    ∧ serverFacadeOps = ["bind", "unbind"]
    ∧ clientFacadeOps = ["connect", "disconnect", "addServerKey", "delServerKey"]
    ∧ (∀ h kp nb, Socket.constructServer h kp nb = SocketImpl.construct h true kp nb
        ∧ (Socket.constructServer h kp nb).isServer = true)
    ∧ (∀ h kp nb, Socket.constructClient h kp nb = SocketImpl.construct h false kp nb
        ∧ (Socket.constructClient h kp nb).isServer = false) :=
  ⟨fun _ _ => rfl, fun _ _ => rfl, fun _ _ => rfl, fun _ _ => rfl,
   fun _ _ _ => rfl, fun _ _ => rfl, rfl, rfl,
   fun _ _ _ => ⟨rfl, rfl⟩, fun _ _ _ => ⟨rfl, rfl⟩⟩

/-- C7: every fallible send/recv/option operation named by the propagation
policy is declared `noexcept` in `Socket.h` and returns a
`folly::Expected` result carrying either the value or a tagged error. -/
theorem fallible_ops_noexcept_expected :
    ∀ op : OpName, opIsNoexcept op = true ∧ opReturnsExpected op = true := by
  intro op
  cases op <;> exact ⟨rfl, rfl⟩

/-- C8: the query operations are side-effect-free: `isNonBlocking` returns
true exactly when the `ZMQ_DONTWAIT` bit (bit 0) is set in the base flags
and leaves the state untouched; `getKeyPair` returns the key pair supplied
at construction and leaves the state untouched; `hasMore` leaves the state
untouched and only reflects the more bit latched by the most recent
receive. -/
theorem query_ops_side_effect_free :
    (∀ s : SocketState, (SocketImpl.isNonBlocking s).1 = s.baseFlags.testBit 0
      ∧ (SocketImpl.isNonBlocking s).2 = s)
    ∧ (∀ s : SocketState, (SocketImpl.getKeyPair s).2 = s)
    ∧ (∀ h sv kp nb,
        (SocketImpl.getKeyPair (SocketImpl.construct h sv kp nb)).1 = kp)
    ∧ (∀ s : SocketState, (SocketImpl.hasMoreOp s).2 = s)
    ∧ (∀ (T : Option Nat) (s : SocketState) (m : Message) (b : Bool)
        (rest : List (Message × Bool)), s.frames = (m, b) :: rest →
        (SocketImpl.hasMoreOp (SocketImpl.recvOne T s).2).1 = b) := by
  refine ⟨fun s => ⟨?_, rfl⟩, fun s => rfl, fun h sv kp nb => rfl,
    fun s => rfl, ?_⟩
  · have hmod : s.baseFlags &&& 1 = s.baseFlags % 2 := Nat.and_one_is_mod _
    simp [SocketImpl.isNonBlocking, ZMQ_DONTWAIT, hmod, Nat.testBit_zero,
      decide_eq_decide]
  · intro T s m b rest hf
    have hstep := recvOne_cons T s m b rest hf
    rw [hstep]
    rfl

theorem query_ops_side_effect_free_witness :
    (SocketImpl.hasMoreOp
      (SocketImpl.recvOne none
        { frames := [(⟨[1]⟩, true)] }).2).1 = true :=
  query_ops_side_effect_free.2.2.2.2 none { frames := [(⟨[1]⟩, true)] }
    ⟨[1]⟩ true [] rfl

/-- C9: sockets are move-only: copy construction and copy assignment of
`SocketImpl` are deleted, and moving a socket hands the full state — raw
handle, event-loop interest and waiter bookkeeping included — to the
destination while the moved-from source's handle becomes null. -/
theorem socket_move_only :
    socketImplCopyControl.copyCtorDeleted = true
    ∧ socketImplCopyControl.copyAssignDeleted = true
    ∧ socketImplCopyControl.moveCtorDeclared = true
    ∧ (∀ s : SocketState, (SocketImpl.moveSocket s).1 = s
        ∧ (SocketImpl.moveSocket s).2.ptr = none) :=
  ⟨rfl, rfl, rfl, fun _ => ⟨rfl, rfl⟩⟩

end Fbzmq
